import Mathlib

/-
Verification development for the Test_Case_Generator frontend core:
the file-tree builder and toggle logic (frontend/components/FileTree.jsx)
and the backend gateway client (frontend/lib/backend.js).

JavaScript strings are modelled as Lean String values; the JS string
operations used by the source (split('/'), trim(), template joins) are
defined below on the underlying character list so that they are fully
executable.  JS falsiness of a string is emptiness; absent object fields
are modelled with Option.
-/

/-! ## JS string primitives -/

/-- Model of the JS call path.split('/') : splitting on each occurrence of
the single character '/' (JS semantics for a one-character separator). -/
def jsSplitSlash (s : String) : List String :=
  (s.data.splitOn '/').map (fun l => ⟨l⟩)

/-- Model of JS String.prototype.trim: drop whitespace from both ends. -/
def jsTrim (s : String) : String :=
  ⟨((s.data.dropWhile Char.isWhitespace).reverse.dropWhile Char.isWhitespace).reverse⟩

/-- The plain '/'-join of a list of segments (the "reconstructed path" of the
spec: ancestor names joined by '/'). -/
def joinSegs : List String → String
  | [] => ""
  | [x] => x
  | x :: xs => x ++ "/" ++ joinSegs xs

/-- Model of the JS expression (currentPath ? currentPath + "/" + name : name)
from buildTree: the empty string is falsy. -/
def joinPath (currentPath name : String) : String :=
  if currentPath = "" then name else currentPath ++ "/" ++ name

/-! ## Data model: FlatFileEntry and TreeNode (FileTree.jsx) -/

/-- A flat file record as produced by the gateway client: repository path and
byte size. -/
structure FlatFileEntry where
  path : String
  size : Nat
  deriving Repr, DecidableEq

/-- A node of the client-side tree: a file leaf { name, path, type:'file', size }
or a directory { name, path, type:'dir', expanded, children }. -/
inductive TreeNode where
  | file (name path : String) (size : Nat) : TreeNode
  | dir (name path : String) (expanded : Bool) (children : List TreeNode) : TreeNode

/-- The JS test (n.type === 'dir' && n.name === name) used by the find call in
buildTree. -/
def TreeNode.isDirNamed (n : TreeNode) (name : String) : Bool :=
  match n with
  | .dir nm _ _ _ => nm == name
  | .file _ _ _ => false

/-! ## buildTree (FileTree.jsx lines 139-164) -/

/-- One step of the buildTree inner loop for a non-final segment: find the
first directory child with the given name and rebuild it with new children
(the JS code mutates dir.children in place; functionally the remaining
segments are inserted into that subtree), or append a fresh directory
{ name, path: cp, type:'dir', expanded: true, children: f [] } when the find
fails. -/
def upsertDir (name cp : String) (f : List TreeNode → List TreeNode) :
    List TreeNode → List TreeNode
  | [] => [.dir name cp true (f [])]
  | .dir nm p e cs :: ns =>
      if nm = name then .dir nm p e (f cs) :: ns
      else .dir nm p e cs :: upsertDir name cp f ns
  | .file nm p sz :: ns => .file nm p sz :: upsertDir name cp f ns

/-- The buildTree inner loop over the split segments of one entry path:
the final segment is appended as a file node carrying the entry's size, every
earlier segment walks into (or creates) a directory node. currentPath is the
JS accumulator variable, updated with joinPath at each segment. -/
def insertParts (size : Nat) : List String → String → List TreeNode → List TreeNode
  | [], _, current => current
  | [name], currentPath, current =>
      current ++ [.file name (joinPath currentPath name) size]
  | name :: b :: rest, currentPath, current =>
      upsertDir name (joinPath currentPath name)
        (insertParts size (b :: rest) (joinPath currentPath name)) current

/-- buildTree from FileTree.jsx: fold the entries in order into an initially
empty root forest, splitting each path on '/'. (The map variable in the JS
source is created but never used.) -/
def buildTree (files : List FlatFileEntry) : List TreeNode :=
  files.foldl (fun root f => insertParts f.size (jsSplitSlash f.path) "" root) []

/-! ## toggleNode / toggleDirectory (FileTree.jsx lines 82-84 and 166-174) -/

mutual

/-- toggleNode from FileTree.jsx: a directory whose path equals the target is
returned with expanded flipped (children untouched); any other directory is
rebuilt with toggleNode mapped over its children; a file is returned as is. -/
def toggleNode (node : TreeNode) (path : String) : TreeNode :=
  match node with
  | .file n p s => .file n p s
  | .dir n p e cs =>
      if p = path then .dir n p (!e) cs
      else .dir n p e (toggleForest cs path)

/-- toggleNode mapped over a list of children (the JS children.map call). -/
def toggleForest (forest : List TreeNode) (path : String) : List TreeNode :=
  match forest with
  | [] => []
  | c :: cs => toggleNode c path :: toggleForest cs path

end

/-- toggleDir from FileTree.jsx: map toggleNode over the root forest. -/
def toggleDirectory (forest : List TreeNode) (path : String) : List TreeNode :=
  forest.map (fun n => toggleNode n path)

/-! ## Observations on trees -/

mutual

/-- The reconstructed (path, size) pairs of the file nodes inside one node:
anc is the list of ancestor directory names, and a file node contributes the
'/'-join of those names followed by its own name, paired with its size. -/
def fileEntriesOfNode (anc : List String) : TreeNode → List (String × Nat)
  | .file nm _ sz => [(joinSegs (anc ++ [nm]), sz)]
  | .dir nm _ _ cs => fileEntriesOfForest (anc ++ [nm]) cs

/-- All reconstructed file entries of a forest, in traversal order. -/
def fileEntriesOfForest (anc : List String) : List TreeNode → List (String × Nat)
  | [] => []
  | n :: ns => fileEntriesOfNode anc n ++ fileEntriesOfForest anc ns

end

mutual

/-- Number of file nodes in one node, across all depths. -/
def countFilesNode : TreeNode → Nat
  | .file _ _ _ => 1
  | .dir _ _ _ cs => countFilesForest cs

/-- Number of file nodes in a forest, across all depths. -/
def countFilesForest : List TreeNode → Nat
  | [] => 0
  | n :: ns => countFilesNode n + countFilesForest ns

end

/-- Whether some node of the list is a directory with the given name. -/
def hasDirNamed : List TreeNode → String → Bool
  | [], _ => false
  | n :: ns, name => n.isDirNamed name || hasDirNamed ns name

/-- Head condition of the per-level deduplication invariant: a directory node
is not followed by another directory of the same name at its level. -/
def headDirFresh (n : TreeNode) (ns : List TreeNode) : Bool :=
  match n with
  | .dir nm _ _ _ => !hasDirNamed ns nm
  | .file _ _ _ => true

mutual

/-- Deduplication invariant inside one node: the children of a directory are
deduplicated at every level. -/
def nodeDedup : TreeNode → Bool
  | .file _ _ _ => true
  | .dir _ _ _ cs => forestDedup cs

/-- Deduplication invariant of a forest: at this level no two directory nodes
share a name, and recursively in all children. -/
def forestDedup : List TreeNode → Bool
  | [] => true
  | n :: ns => headDirFresh n ns && nodeDedup n && forestDedup ns

end

mutual

/-- Every directory node inside this node has expanded = true. -/
def nodeExpanded : TreeNode → Bool
  | .file _ _ _ => true
  | .dir _ _ e cs => e && forestExpanded cs

/-- Every directory node of the forest has expanded = true, at all depths. -/
def forestExpanded : List TreeNode → Bool
  | [] => true
  | n :: ns => nodeExpanded n && forestExpanded ns

end

mutual

/-- Whether this node or one of its descendants is a directory whose stored
path equals the given target path. -/
def nodeHasDirPath : TreeNode → String → Bool
  | .file _ _ _, _ => false
  | .dir _ p _ cs, path => p == path || forestHasDirPath cs path

/-- Whether the forest contains a directory node with the given path. -/
def forestHasDirPath : List TreeNode → String → Bool
  | [], _ => false
  | n :: ns, path => nodeHasDirPath n path || forestHasDirPath ns path

end

/-! ## Allocation-instrumented toggleNode

The JS toggleNode returns the received object itself only in its final
branch (plain files, and directories without a children array, which cannot
arise here since every directory carries a children array); both directory
branches build a fresh object with an object spread.  The instrumented
version returns the toggled node together with a flag that is true exactly
when the JS function would return the identical object (no reallocation). -/

mutual

/-- toggleNode together with an identity-preservation flag: true iff the JS
source returns the received object itself rather than a fresh spread copy. -/
def toggleNodeAlloc : TreeNode → String → TreeNode × Bool
  | .file n p s, _ => (.file n p s, true)
  | .dir n p e cs, path =>
      if p = path then (.dir n p (!e) cs, false)
      else (.dir n p e (toggleForestAlloc cs path), false)

/-- The instrumented toggle mapped over children (the flags of the children
are per-node; the list itself is rebuilt by the JS map call). -/
def toggleForestAlloc : List TreeNode → String → List TreeNode
  | [], _ => []
  | c :: cs, path => (toggleNodeAlloc c path).1 :: toggleForestAlloc cs path

end

/-! ## Backend gateway client (backend.js): JS value helpers -/

/-- JS falsy-or on two optional strings (a || b where undefined and the empty
string are falsy). -/
def jsOrOptStr (a b : Option String) : Option String :=
  match a with
  | some s => if s = "" then b else some s
  | none => b

/-- JS falsy-or of an optional string against a string default. -/
def jsOrStr (a : Option String) (b : String) : String :=
  match a with
  | some s => if s = "" then b else s
  | none => b

/-- JS template-literal rendering of a possibly missing string value (a
missing field renders as the text undefined). -/
def jsShowOptStr : Option String → String
  | some s => s
  | none => "undefined"

/-! ## flattenFiles (backend.js lines 178-201) -/

/-- A backend tree node as read by flattenFiles: the six object fields the
function touches, each possibly absent.  Children values that are not arrays
and field values of unexpected JSON types are outside this model; no claim
involves them. -/
inductive BNode where
  | node (name : Option String) (type : Option String) (file_type : Option String)
      (path : Option String) (size : Option Nat)
      (children : Option (List BNode)) : BNode

def BNode.name : BNode → Option String
  | .node n _ _ _ _ _ => n

def BNode.type : BNode → Option String
  | .node _ t _ _ _ _ => t

def BNode.file_type : BNode → Option String
  | .node _ _ ft _ _ _ => ft

def BNode.path : BNode → Option String
  | .node _ _ _ p _ _ => p

def BNode.size : BNode → Option Nat
  | .node _ _ _ _ sz _ => sz

def BNode.children : BNode → Option (List BNode)
  | .node _ _ _ _ _ ch => ch

/-- The effective type of a node: node.type || node.file_type (line 191). -/
def BNode.nodeType (n : BNode) : Option String :=
  jsOrOptStr n.type n.file_type

/-- full = pfx ? pfx + "/" + node.name : node.name (line 190), with JS
template rendering of the name. -/
def BNode.fullPath (n : BNode) (pfx : String) : String :=
  if pfx = "" then jsShowOptStr n.name else pfx ++ "/" ++ jsShowOptStr n.name

mutual

/-- One iteration of the walk loop of flattenFiles: emit a flat entry when
the effective type is the string file; recurse into the children (or an
empty list) when the effective type is dir or directory or a children field
is present; otherwise contribute nothing. -/
def flattenNode (pfx : String) : BNode → List FlatFileEntry
  | .node nm ty fty pth sz ch =>
      let full := if pfx = "" then jsShowOptStr nm else pfx ++ "/" ++ jsShowOptStr nm
      if jsOrOptStr ty fty = some "file" then
        [⟨jsOrStr pth full, sz.getD 0⟩]
      else if jsOrOptStr ty fty = some "dir" ∨ jsOrOptStr ty fty = some "directory" ∨
          ch.isSome then
        match ch with
        | some cs => flattenForest full cs
        | none => []
      else []

/-- The walk loop over a list of sibling nodes, in order. -/
def flattenForest (pfx : String) : List BNode → List FlatFileEntry
  | [] => []
  | n :: ns => flattenNode pfx n ++ flattenForest pfx ns

end

/-- flattenFiles with its default empty prefix, applied to an array of nodes
(a non-array or missing argument yields [] in the source and is handled at
the call sites below). -/
def flattenFiles (nodes : List BNode) : List FlatFileEntry :=
  flattenForest "" nodes

/-! ## normalizeAxiosError (backend.js lines 134-176) -/

/-- Response body attached to an axios error, as read by normalizeAxiosError:
a JSON object (only the four message-bearing fields are read; field values of
non-string JSON types are outside the model), a JSON string, or no usable
body (null, or any other falsy value). -/
inductive RespData where
  | obj (detail message error msg : Option String) : RespData
  | str (s : String) : RespData
  | nullData : RespData

/-- The response part of an axios error: err.response.status (0 and absent
are falsy), err.response.statusText ("" and absent are falsy), and the body. -/
structure RespInfo where
  status : Option Nat
  statusText : Option String
  data : RespData

/-- A thrown JS value as inspected by normalizeAxiosError: an error-like
object with optional response / request / message parts, a thrown primitive
(string, number or boolean, each with its JS string rendering and
truthiness), or null / undefined. -/
inductive JSErr where
  | errObj (response : Option RespInfo) (hasRequest : Bool)
      (message : Option String) : JSErr
  | primString (s : String) : JSErr
  | primNumber (n : Int) : JSErr
  | primBool (b : Bool) : JSErr
  | nullErr : JSErr

/-- The chain data.detail || data.message || data.error || data.msg. -/
def firstTruthyField (a b c d : Option String) : Option String :=
  jsOrOptStr a (jsOrOptStr b (jsOrOptStr c d))

/-- Rendering of err.response.status || 'Unknown'. -/
def statusDisplay : Option Nat → String
  | some n => if n = 0 then "Unknown" else toString n
  | none => "Unknown"

/-- Rendering of err.response.statusText || 'Unknown Error'. -/
def statusTextDisplay : Option String → String
  | some s => if s = "" then "Unknown Error" else s
  | none => "Unknown Error"

/-- normalizeAxiosError, modelled as the message of the Error it returns:
a present response wins (its body's first truthy message field, trimmed, when
the trimmed value is non-empty; a non-empty string body, trimmed, when the
trimmed value is non-empty; else the status fallback); then a present
request; then a truthy message field; then the rendering of a truthy
primitive; anything else gives the unknown-error message. -/
def normalizeAxiosError : JSErr → String
  | .errObj (some r) _ _ =>
      match r.data with
      | .obj d m e m2 =>
          match firstTruthyField d m e m2 with
          | some v =>
              if jsTrim v = "" then
                statusDisplay r.status ++ " " ++ statusTextDisplay r.statusText
              else jsTrim v
          | none => statusDisplay r.status ++ " " ++ statusTextDisplay r.statusText
      | .str s =>
          if s ≠ "" ∧ jsTrim s ≠ "" then jsTrim s
          else statusDisplay r.status ++ " " ++ statusTextDisplay r.statusText
      | .nullData => statusDisplay r.status ++ " " ++ statusTextDisplay r.statusText
  | .errObj none true _ => "Network error: backend unreachable"
  | .errObj none false (some m) => if m = "" then "Unknown error occurred" else m
  | .errObj none false none => "Unknown error occurred"
  | .primString s => if s = "" then "Unknown error occurred" else s
  | .primNumber n => if n = 0 then "Unknown error occurred" else toString n
  | .primBool b => if b then "true" else "Unknown error occurred"
  | .nullErr => "Unknown error occurred"

/-! ## Gateway call models (backend.js lines 5-132)

Each exported function is modelled as a pure function of the outcome the
network would give for its request(s).  The result pairs the JS outcome
(resolved value, or thrown error message) with the number of network
requests issued, so that failing before any request is observable. -/

/-- Outcome of a single axios call: a resolved response carrying the parsed
body, or a thrown value. -/
inductive NetOutcome (β : Type) where
  | success (data : β) : NetOutcome β
  | failure (e : JSErr) : NetOutcome β

/-- Body of the repository files endpoint as read by fetchRepoFiles: an
object with an optional files array, or a falsy body. -/
inductive RFBody where
  | obj (files : Option (List BNode)) : RFBody
  | nullBody : RFBody

/-- res.data?.files || [] (backend.js line 14): an empty files array is a
truthy JS value and is passed through (giving [] after flattening anyway). -/
def rfFiles : RFBody → List BNode
  | .obj (some fs) => fs
  | .obj none => []
  | .nullBody => []

/-- fetchRepoFiles (backend.js 5-19). -/
def fetchRepoFilesRun (net : NetOutcome RFBody) (owner repo : String) :
    Except String (List FlatFileEntry) × Nat :=
  if owner = "" ∨ repo = "" then
    (.error "Owner and repository name are required", 0)
  else
    match net with
    | .success d => (.ok (flattenFiles (rfFiles d)), 1)
    | .failure e => (.error (normalizeAxiosError e), 1)

/-- One entry of the file-contents payload. -/
structure FileContent where
  path : String
  content : String
  deriving Repr, DecidableEq

/-- Body of the file-contents endpoint: an object with an optional files
array, a bare JSON string, or a falsy body. -/
inductive FCBody where
  | obj (files : Option (List FileContent)) : FCBody
  | str (s : String) : FCBody
  | nullBody : FCBody
  deriving Repr, DecidableEq

/-- Value of res.data?.files || res.data || [] (backend.js line 32): the
files array when present, otherwise the whole truthy body, otherwise []. -/
inductive FCResult where
  | filesList (l : List FileContent) : FCResult
  | rawBody (b : FCBody) : FCResult
  deriving Repr, DecidableEq

/-- The extraction res.data?.files || res.data || []. -/
def fcExtract : FCBody → FCResult
  | .obj (some fs) => .filesList fs
  | .obj none => .rawBody (.obj none)
  | .str s => if s = "" then .filesList [] else .rawBody (.str s)
  | .nullBody => .filesList []

/-- fetchFileContents (backend.js 21-36). -/
def fetchFileContentsRun (net : NetOutcome FCBody) (owner repo : String)
    (paths : List String) : Except String FCResult × Nat :=
  if owner = "" ∨ repo = "" then
    (.error "Owner and repository name are required", 0)
  else if paths = [] then
    (.error "File paths array is required and must not be empty", 0)
  else
    match net with
    | .success d => (.ok (fcExtract d), 1)
    | .failure e => (.error (normalizeAxiosError e), 1)

/-- summarizeTestsWithContent (backend.js 38-50); the response body is opaque
and the framework argument only reaches the query string. -/
def summarizeTestsWithContentRun {α : Type} (net : NetOutcome α)
    (fileContents : List FileContent) (_framework : String) :
    Except String α × Nat :=
  if fileContents = [] then
    (.error "File contents array is required and must not be empty", 0)
  else
    match net with
    | .success d => (.ok d, 1)
    | .failure e => (.error (normalizeAxiosError e), 1)

/-- summarizeTests (backend.js 52-71): validate, call fetchFileContents, then
post its result to the summarize endpoint; an error thrown by the inner call
goes through normalizeAxiosError a second time as a plain Error object
carrying its message. -/
def summarizeTestsRun {α : Type} (net1 : NetOutcome FCBody) (net2 : NetOutcome α)
    (owner repo : String) (paths : List String) (_framework : String) :
    Except String α × Nat :=
  if owner = "" ∨ repo = "" then
    (.error "Owner and repository name are required", 0)
  else if paths = [] then
    (.error "File paths array is required and must not be empty", 0)
  else
    match fetchFileContentsRun net1 owner repo paths with
    | (.error msg, k) =>
        (.error (normalizeAxiosError (.errObj none false (some msg))), k)
    | (.ok _, k) =>
        match net2 with
        | .success d => (.ok d, k + 1)
        | .failure e => (.error (normalizeAxiosError e), k + 1)

/-- generateCode (backend.js 73-88): the first argument is the selected file
content object (absent is falsy), the summary is a string. -/
def generateCodeRun {α : Type} (net : NetOutcome α) (fileContent : Option FileContent)
    (summary : String) (_framework : String) : Except String α × Nat :=
  if fileContent = none then
    (.error "File content is required", 0)
  else if summary = "" then
    (.error "Summary is required", 0)
  else
    match net with
    | .success d => (.ok d, 1)
    | .failure e => (.error (normalizeAxiosError e), 1)

/-- generateTest (backend.js 90-112): three required string arguments. -/
def generateTestRun {α : Type} (net : NetOutcome α)
    (fileName fileContent scenario : String) : Except String α × Nat :=
  if fileName = "" then
    (.error "File name is required", 0)
  else if fileContent = "" then
    (.error "File content is required", 0)
  else if scenario = "" then
    (.error "Scenario is required", 0)
  else
    match net with
    | .success d => (.ok d, 1)
    | .failure e => (.error (normalizeAxiosError e), 1)

/-! ## checkBackendHealth (backend.js lines 114-132) -/

/-- Outcome of one health-probe attempt: a resolved response with its HTTP
status, or a thrown error (timeout, connection failure, non-2xx status). -/
inductive HealthOutcome where
  | resp (status : Nat) : HealthOutcome
  | failed : HealthOutcome
  deriving Repr, DecidableEq

/-- checkBackendHealth over the outcomes of the fixed candidate list, in
order: return true at the first response with status 200; a response with
another status or a thrown (and caught) error moves to the next candidate;
an exhausted list gives false.  Every error is consumed inside the loop, so
the model is a total Bool-valued function: the source never throws. -/
def checkBackendHealth : List HealthOutcome → Bool
  | [] => false
  | .resp s :: rest => if s = 200 then true else checkBackendHealth rest
  | .failed :: rest => checkBackendHealth rest

/-! ## General lemmas -/

theorem joinSegs_intercalate (ls : List (List Char)) :
    joinSegs (ls.map (fun l => ⟨l⟩)) = ⟨List.intercalate ['/'] ls⟩ := by
  match ls with
  | [] => rfl
  | [x] => simp [joinSegs, List.intercalate]
  | x :: y :: xs =>
      have ih := joinSegs_intercalate (y :: xs)
      have h1 : joinSegs ((x :: y :: xs).map (fun l => (⟨l⟩ : String))) =
          ⟨x⟩ ++ "/" ++ joinSegs ((y :: xs).map (fun l => ⟨l⟩)) := rfl
      rw [h1, ih]
      have h2 : (⟨x⟩ : String) ++ "/" ++ (⟨List.intercalate ['/'] (y :: xs)⟩ : String) =
          ⟨(x ++ ['/']) ++ List.intercalate ['/'] (y :: xs)⟩ := rfl
      rw [h2]
      congr 1
      simp [List.intercalate, List.intersperse, List.append_assoc]

/-- Splitting on '/' and '/'-joining the segments gives the string back. -/
theorem joinSegs_jsSplitSlash (s : String) : joinSegs (jsSplitSlash s) = s := by
  have h : ['/'].intercalate (s.data.splitOn '/') = s.data :=
    List.intercalate_splitOn s.data '/'
  unfold jsSplitSlash
  rw [joinSegs_intercalate, h]

theorem jsSplitSlash_ne_nil (s : String) : jsSplitSlash s ≠ [] := by
  unfold jsSplitSlash
  intro h
  exact List.splitOnP_ne_nil _ s.data (List.map_eq_nil_iff.mp h)

theorem toggleForest_eq_map (forest : List TreeNode) (path : String) :
    toggleForest forest path = forest.map (fun n => toggleNode n path) := by
  induction forest with
  | nil => rfl
  | cons c cs ih => simp [toggleForest, ih]

mutual

theorem toggleNode_invol (node : TreeNode) (path : String) :
    toggleNode (toggleNode node path) path = node := by
  cases node with
  | file n p s => rfl
  | dir n p e cs =>
      by_cases h : p = path
      · simp [toggleNode, h]
      · simp [toggleNode, h, toggleForest_invol cs path]

theorem toggleForest_invol (forest : List TreeNode) (path : String) :
    toggleForest (toggleForest forest path) path = forest := by
  cases forest with
  | nil => rfl
  | cons c cs =>
      simp [toggleForest, toggleNode_invol c path, toggleForest_invol cs path]

end

mutual

theorem countFilesNode_eq_length (anc : List String) (n : TreeNode) :
    countFilesNode n = (fileEntriesOfNode anc n).length := by
  cases n with
  | file nm p sz => rfl
  | dir nm p e cs =>
      simpa [countFilesNode, fileEntriesOfNode] using
        countFilesForest_eq_length (anc ++ [nm]) cs

theorem countFilesForest_eq_length (anc : List String) (forest : List TreeNode) :
    countFilesForest forest = (fileEntriesOfForest anc forest).length := by
  cases forest with
  | nil => rfl
  | cons n ns =>
      simp [countFilesForest, fileEntriesOfForest,
        countFilesNode_eq_length anc n, countFilesForest_eq_length anc ns]

end

mutual

theorem toggleNodeAlloc_fst (n : TreeNode) (path : String) :
    (toggleNodeAlloc n path).1 = toggleNode n path := by
  cases n with
  | file nm p s => rfl
  | dir nm p e cs =>
      by_cases h : p = path
      · simp [toggleNodeAlloc, toggleNode, h]
      · simp [toggleNodeAlloc, toggleNode, h, toggleForestAlloc_eq cs path]

theorem toggleForestAlloc_eq (forest : List TreeNode) (path : String) :
    toggleForestAlloc forest path = toggleForest forest path := by
  cases forest with
  | nil => rfl
  | cons c cs =>
      simp [toggleForestAlloc, toggleForest, toggleNodeAlloc_fst c path,
        toggleForestAlloc_eq cs path]

end

mutual

theorem toggleNode_not_found (n : TreeNode) (path : String)
    (h : nodeHasDirPath n path = false) : toggleNode n path = n := by
  cases n with
  | file nm p s => rfl
  | dir nm p e cs =>
      simp only [nodeHasDirPath, Bool.or_eq_false_iff, beq_eq_false_iff_ne] at h
      simp [toggleNode, h.1, toggleForest_not_found cs path h.2]

theorem toggleForest_not_found (forest : List TreeNode) (path : String)
    (h : forestHasDirPath forest path = false) : toggleForest forest path = forest := by
  cases forest with
  | nil => rfl
  | cons c cs =>
      simp only [forestHasDirPath, Bool.or_eq_false_iff] at h
      simp [toggleForest, toggleNode_not_found c path h.1,
        toggleForest_not_found cs path h.2]

end

/-! ## buildTree collects exactly the input entries -/

theorem fileEntriesOfForest_append (anc : List String) (a b : List TreeNode) :
    fileEntriesOfForest anc (a ++ b) =
      fileEntriesOfForest anc a ++ fileEntriesOfForest anc b := by
  induction a with
  | nil => rfl
  | cons n ns ih => simp [fileEntriesOfForest, ih]

theorem fileEntries_upsertDir (name cp : String) (f : List TreeNode → List TreeNode)
    (anc : List String) (entry : String × Nat)
    (hf : ∀ cs, (fileEntriesOfForest (anc ++ [name]) (f cs)).Perm
        (entry :: fileEntriesOfForest (anc ++ [name]) cs)) :
    ∀ forest : List TreeNode,
      (fileEntriesOfForest anc (upsertDir name cp f forest)).Perm
        (entry :: fileEntriesOfForest anc forest)
  | [] => by
      simpa [upsertDir, fileEntriesOfForest, fileEntriesOfNode] using hf []
  | .dir nm p e cs :: ns => by
      by_cases h : nm = name
      · subst h
        simp only [upsertDir, if_pos rfl, fileEntriesOfForest, fileEntriesOfNode]
        exact (hf cs).append_right _
      · have ih := fileEntries_upsertDir name cp f anc entry hf ns
        simp only [upsertDir, if_neg h, fileEntriesOfForest, fileEntriesOfNode]
        exact (ih.append_left _).trans List.perm_middle
  | .file nm p sz :: ns => by
      have ih := fileEntries_upsertDir name cp f anc entry hf ns
      simp only [upsertDir, fileEntriesOfForest, fileEntriesOfNode]
      exact (ih.append_left _).trans List.perm_middle

theorem fileEntries_insertParts (sz : Nat) :
    ∀ (parts : List String), parts ≠ [] →
    ∀ (cp : String) (anc : List String) (forest : List TreeNode),
      (fileEntriesOfForest anc (insertParts sz parts cp forest)).Perm
        ((joinSegs (anc ++ parts), sz) :: fileEntriesOfForest anc forest)
  | [], h => absurd rfl h
  | [name], _ => by
      intro cp anc forest
      simp only [insertParts, fileEntriesOfForest_append, fileEntriesOfForest,
        fileEntriesOfNode, List.append_nil]
      exact List.perm_append_singleton _ _
  | name :: b :: rest, _ => by
      intro cp anc forest
      have hrec := fileEntries_insertParts sz (b :: rest) (by simp)
      simp only [insertParts]
      have happ : anc ++ name :: b :: rest = (anc ++ [name]) ++ (b :: rest) := by
        simp
      rw [happ]
      exact fileEntries_upsertDir name (joinPath cp name)
        (insertParts sz (b :: rest) (joinPath cp name)) anc
        ((joinSegs ((anc ++ [name]) ++ (b :: rest)), sz))
        (fun cs => hrec (joinPath cp name) (anc ++ [name]) cs) forest

theorem fileEntries_buildTree_aux :
    ∀ (entries : List FlatFileEntry) (forest : List TreeNode),
      (fileEntriesOfForest []
          (entries.foldl (fun root f => insertParts f.size (jsSplitSlash f.path) "" root)
            forest)).Perm
        (entries.map (fun e => (e.path, e.size)) ++ fileEntriesOfForest [] forest)
  | [], forest => by simp [List.foldl]
  | e :: es, forest => by
      have ih := fileEntries_buildTree_aux es
        (insertParts e.size (jsSplitSlash e.path) "" forest)
      have hstep :=
        fileEntries_insertParts e.size (jsSplitSlash e.path) (jsSplitSlash_ne_nil e.path)
          "" [] forest
      rw [List.nil_append, joinSegs_jsSplitSlash] at hstep
      simp only [List.foldl_cons, List.map_cons, List.cons_append]
      exact (ih.trans ((hstep.append_left _).trans List.perm_middle))

/-! ## buildTree preserves deduplication and expanded flags -/

theorem hasDirNamed_upsertDir (name cp nm : String) (f : List TreeNode → List TreeNode) :
    ∀ l : List TreeNode,
      hasDirNamed (upsertDir name cp f l) nm = (hasDirNamed l nm || name == nm)
  | [] => by simp [upsertDir, hasDirNamed, TreeNode.isDirNamed]
  | .dir nm2 p e cs :: ns => by
      by_cases h : nm2 = name
      · subst h
        by_cases h2 : nm2 = nm
        · subst h2
          simp [upsertDir, hasDirNamed, TreeNode.isDirNamed]
        · simp [upsertDir, hasDirNamed, TreeNode.isDirNamed,
            beq_eq_false_iff_ne.mpr h2]
      · simp only [upsertDir, if_neg h, hasDirNamed, TreeNode.isDirNamed,
          hasDirNamed_upsertDir name cp nm f ns, Bool.or_assoc]
  | .file nm2 p sz :: ns => by
      simp only [upsertDir, hasDirNamed, TreeNode.isDirNamed,
        hasDirNamed_upsertDir name cp nm f ns, Bool.false_or]

theorem hasDirNamed_append_file (l : List TreeNode) (nm2 p : String) (sz : Nat)
    (nm : String) :
    hasDirNamed (l ++ [.file nm2 p sz]) nm = hasDirNamed l nm := by
  induction l with
  | nil => simp [hasDirNamed, TreeNode.isDirNamed]
  | cons n ns ih => simp [hasDirNamed, ih]

theorem forestDedup_append_file (nm2 p : String) (sz : Nat) :
    ∀ l : List TreeNode, forestDedup l = true →
      forestDedup (l ++ [.file nm2 p sz]) = true
  | [], _ => by simp [forestDedup, headDirFresh, nodeDedup, hasDirNamed]
  | n :: ns, h => by
      simp only [forestDedup, Bool.and_eq_true] at h
      simp only [List.cons_append, forestDedup, Bool.and_eq_true]
      refine ⟨⟨?_, h.1.2⟩, forestDedup_append_file nm2 p sz ns h.2⟩
      cases n with
      | file _ _ _ => simp [headDirFresh]
      | dir nmh _ _ _ =>
          simpa [headDirFresh, hasDirNamed_append_file] using h.1.1

theorem forestDedup_upsertDir (name cp : String) (f : List TreeNode → List TreeNode)
    (hf : ∀ cs, forestDedup cs = true → forestDedup (f cs) = true) :
    ∀ l : List TreeNode, forestDedup l = true →
      forestDedup (upsertDir name cp f l) = true
  | [], _ => by
      simp [upsertDir, forestDedup, headDirFresh, hasDirNamed, nodeDedup, hf [] rfl]
  | .dir nm p e cs :: ns, h => by
      simp only [forestDedup, Bool.and_eq_true, headDirFresh, nodeDedup,
        Bool.not_eq_true', Bool.not_eq_eq_eq_not] at h
      by_cases heq : nm = name
      · simp only [upsertDir, if_pos heq, forestDedup, Bool.and_eq_true,
          headDirFresh, nodeDedup]
        refine ⟨⟨?_, hf cs h.1.2⟩, h.2⟩
        simpa using h.1.1
      · simp only [upsertDir, if_neg heq, forestDedup, Bool.and_eq_true,
          headDirFresh, nodeDedup]
        refine ⟨⟨?_, h.1.2⟩, forestDedup_upsertDir name cp f hf ns h.2⟩
        rw [hasDirNamed_upsertDir]
        have h1 : hasDirNamed ns nm = false := by simpa using h.1.1
        simp [h1, beq_eq_false_iff_ne.mpr (Ne.symm heq)]
  | .file nm p sz :: ns, h => by
      simp only [forestDedup, Bool.and_eq_true, headDirFresh, nodeDedup] at h
      simp only [upsertDir, forestDedup, Bool.and_eq_true, headDirFresh, nodeDedup]
      exact ⟨⟨trivial, trivial⟩, forestDedup_upsertDir name cp f hf ns h.2⟩

theorem forestDedup_insertParts (sz : Nat) :
    ∀ (parts : List String) (cp : String) (l : List TreeNode),
      forestDedup l = true → forestDedup (insertParts sz parts cp l) = true
  | [], _, _, h => h
  | [name], cp, l, h => forestDedup_append_file name (joinPath cp name) sz l h
  | name :: b :: rest, cp, l, h =>
      forestDedup_upsertDir name (joinPath cp name) _
        (fun cs hcs => forestDedup_insertParts sz (b :: rest) (joinPath cp name) cs hcs)
        l h

theorem forestExpanded_append_file (nm2 p : String) (sz : Nat) :
    ∀ l : List TreeNode, forestExpanded l = true →
      forestExpanded (l ++ [.file nm2 p sz]) = true
  | [], _ => rfl
  | n :: ns, h => by
      simp only [forestExpanded, Bool.and_eq_true] at h
      simp only [List.cons_append, forestExpanded, Bool.and_eq_true]
      exact ⟨h.1, forestExpanded_append_file nm2 p sz ns h.2⟩

theorem forestExpanded_upsertDir (name cp : String) (f : List TreeNode → List TreeNode)
    (hf : ∀ cs, forestExpanded cs = true → forestExpanded (f cs) = true) :
    ∀ l : List TreeNode, forestExpanded l = true →
      forestExpanded (upsertDir name cp f l) = true
  | [], _ => by
      simp [upsertDir, forestExpanded, nodeExpanded, hf [] rfl]
  | .dir nm p e cs :: ns, h => by
      simp only [forestExpanded, Bool.and_eq_true, nodeExpanded] at h
      by_cases heq : nm = name
      · simp only [upsertDir, if_pos heq, forestExpanded, Bool.and_eq_true, nodeExpanded]
        exact ⟨⟨h.1.1, hf cs h.1.2⟩, h.2⟩
      · simp only [upsertDir, if_neg heq, forestExpanded, Bool.and_eq_true, nodeExpanded]
        exact ⟨h.1, forestExpanded_upsertDir name cp f hf ns h.2⟩
  | .file nm p sz :: ns, h => by
      simp only [forestExpanded, Bool.and_eq_true, nodeExpanded] at h
      simp only [upsertDir, forestExpanded, Bool.and_eq_true, nodeExpanded]
      exact ⟨trivial, forestExpanded_upsertDir name cp f hf ns h.2⟩

theorem forestExpanded_insertParts (sz : Nat) :
    ∀ (parts : List String) (cp : String) (l : List TreeNode),
      forestExpanded l = true → forestExpanded (insertParts sz parts cp l) = true
  | [], _, _, h => h
  | [name], cp, l, h => forestExpanded_append_file name (joinPath cp name) sz l h
  | name :: b :: rest, cp, l, h =>
      forestExpanded_upsertDir name (joinPath cp name) _
        (fun cs hcs => forestExpanded_insertParts sz (b :: rest) (joinPath cp name) cs hcs)
        l h

theorem forestInvariants_buildTree_aux :
    ∀ (entries : List FlatFileEntry) (forest : List TreeNode),
      forestDedup forest = true → forestExpanded forest = true →
      forestDedup
          (entries.foldl (fun root f => insertParts f.size (jsSplitSlash f.path) "" root)
            forest) = true ∧
        forestExpanded
          (entries.foldl (fun root f => insertParts f.size (jsSplitSlash f.path) "" root)
            forest) = true
  | [], _, hd, he => ⟨hd, he⟩
  | e :: es, forest, hd, he => by
      simp only [List.foldl_cons]
      exact forestInvariants_buildTree_aux es _
        (forestDedup_insertParts e.size (jsSplitSlash e.path) "" forest hd)
        (forestExpanded_insertParts e.size (jsSplitSlash e.path) "" forest he)

/-! ## Claim theorems -/

/-- C1: for every finite sequence of FlatFileEntry, the file nodes of the
forest built by buildTree are, as a multiset, exactly the input entries: each
file node's reconstructed path (the '/'-join of its ancestor directory names
followed by its own name) and size pair corresponds one to one with an input
entry's (path, size); in particular the number of file nodes across all
depths equals the number of entries. -/
theorem buildTree_entries_spec (entries : List FlatFileEntry) :
    (fileEntriesOfForest [] (buildTree entries)).Perm
        (entries.map (fun e => (e.path, e.size))) ∧
      countFilesForest (buildTree entries) = entries.length := by
  have h := fileEntries_buildTree_aux entries []
  simp only [fileEntriesOfForest, List.append_nil] at h
  have h2 : (fileEntriesOfForest [] (buildTree entries)).Perm
      (entries.map (fun e => (e.path, e.size))) := by
    simpa only [buildTree] using h
  refine ⟨h2, ?_⟩
  rw [countFilesForest_eq_length [] (buildTree entries), h2.length_eq, List.length_map]

/-- C2: in every forest built by buildTree, directory nodes are deduplicated
by name and kind within each level and every synthesized directory node is
expanded; and building from the two entries a/b.js (size 10) and a/c.js
(size 20) yields exactly one directory node a, expanded, whose children are
the file nodes b.js (size 10) and c.js (size 20). -/
theorem buildTree_dedup_expanded_spec (entries : List FlatFileEntry) :
    forestDedup (buildTree entries) = true ∧
      forestExpanded (buildTree entries) = true ∧
      buildTree [⟨"a/b.js", 10⟩, ⟨"a/c.js", 20⟩] =
        [.dir "a" "a" true [.file "b.js" "a/b.js" 10, .file "c.js" "a/c.js" 20]] := by
  have h := forestInvariants_buildTree_aux entries [] rfl rfl
  exact ⟨h.1, h.2, rfl⟩

/-- C3: toggleDirectory is an involution: toggling the same target path twice
returns a forest equal to the original, for every forest and every path. -/
theorem toggleDirectory_involutive (forest : List TreeNode) (path : String) :
    toggleDirectory (toggleDirectory forest path) path = forest := by
  rw [toggleDirectory, toggleDirectory, ← toggleForest_eq_map, ← toggleForest_eq_map]
  exact toggleForest_invol forest path

/-- C4 counterexample: in the forest consisting of the single directory a,
with the absent target path b, every node lies outside the path to the
target (there is no directory with path b), yet the source rebuilds the
directory as a fresh spread copy: the instrumented toggle reports that the
returned node is not the received object.  This refutes the claim that every
node outside the path to the target is identity-preserved. -/
theorem toggleDirectory_alloc_counterexample :
    nodeHasDirPath (.dir "a" "a" true []) "b" = false ∧
      (toggleNodeAlloc (.dir "a" "a" true []) "b").2 = false ∧
      (toggleNodeAlloc (.dir "a" "a" true []) "b").1 = .dir "a" "a" true [] :=
  ⟨rfl, rfl, rfl⟩

/-- C4 amended: toggleDirectory structurally copies every directory node of
the forest (flipping expanded exactly at directories matching the target
path) and identity-preserves exactly the file nodes; when no directory
node's path equals the target path the forest is returned unchanged
(deep-equal), without error. -/
theorem toggleDirectory_frame_amended :
    (∀ (forest : List TreeNode) (path : String),
        forestHasDirPath forest path = false → toggleDirectory forest path = forest) ∧
      (∀ (n : TreeNode) (path : String),
        (toggleNodeAlloc n path).1 = toggleNode n path) ∧
      (∀ (n : TreeNode) (path : String),
        ((toggleNodeAlloc n path).2 = true ↔ ∃ nm p sz, n = .file nm p sz)) := by
  refine ⟨?_, toggleNodeAlloc_fst, ?_⟩
  · intro forest path h
    rw [toggleDirectory, ← toggleForest_eq_map]
    exact toggleForest_not_found forest path h
  · intro n path
    cases n with
    | file nm p sz => simp [toggleNodeAlloc]
    | dir nm p e cs =>
        by_cases h : p = path <;> simp [toggleNodeAlloc, h]

/-- Witness for the amended C4: a concrete forest with an absent target path
is returned unchanged. -/
theorem toggleDirectory_frame_amended_witness :
    forestHasDirPath [.dir "a" "a" true [.file "b" "a/b" 1]] "zzz" = false ∧
      toggleDirectory [.dir "a" "a" true [.file "b" "a/b" 1]] "zzz" =
        [.dir "a" "a" true [.file "b" "a/b" 1]] :=
  ⟨rfl, toggleDirectory_frame_amended.1 [.dir "a" "a" true [.file "b" "a/b" 1]] "zzz" rfl⟩

/-- C5 counterexample: a node whose type field is absent but whose file_type
field is the string file is emitted by flattenFiles (the source reads
node.type || node.file_type), while the claim, which tests the type field
alone, would silently drop it; and a node with type file that also carries a
children array is emitted without being recursed into (its child never
appears), while the claim would also recurse into it. -/
theorem flattenFiles_claim_counterexample :
    flattenFiles [.node (some "x") none (some "file") none none none] =
        [⟨"x", 0⟩] ∧
      ([ ] : List FlatFileEntry) ≠ [⟨"x", 0⟩] ∧
      flattenFiles [.node (some "d") (some "file") none (some "p") (some 5)
          (some [.node (some "c.js") (some "file") none (some "d/c.js") (some 7)
            none])] = [⟨"p", 5⟩] ∧
      (⟨"d/c.js", 7⟩ : FlatFileEntry) ∉
        flattenFiles [.node (some "d") (some "file") none (some "p") (some 5)
          (some [.node (some "c.js") (some "file") none (some "d/c.js") (some 7)
            none])] := by
  refine ⟨rfl, ?_, rfl, ?_⟩ <;> decide

/-- C5 amended: a node is emitted as a FlatFileEntry exactly when its
effective type (the type field, falling back to file_type when absent or
empty) is the string file; a node that is not emitted is recursed into
exactly when its effective type is dir or directory or it carries a children
field; any other node is silently dropped; and the nested example response
flattens to the single expected entry. -/
theorem flattenFiles_amended :
    (∀ (pfx : String) (n : BNode) (ns : List BNode),
      flattenForest pfx (n :: ns) =
        (if n.nodeType = some "file" then
          [⟨jsOrStr n.path (n.fullPath pfx), n.size.getD 0⟩]
        else if n.nodeType = some "dir" ∨ n.nodeType = some "directory" ∨
            n.children.isSome then
          flattenForest (n.fullPath pfx) (n.children.getD [])
        else []) ++ flattenForest pfx ns) ∧
      flattenFiles [.node (some "src") (some "dir") none none none
          (some [.node (some "index.js") (some "file") none (some "src/index.js")
            (some 1200) none])] = [⟨"src/index.js", 1200⟩] := by
  refine ⟨?_, rfl⟩
  intro pfx n ns
  cases n with
  | node nm ty fty pth sz ch =>
      cases ch with
      | some cs =>
          simp only [flattenForest, flattenNode, BNode.nodeType, BNode.fullPath,
            BNode.type, BNode.file_type, BNode.name, BNode.path, BNode.size,
            BNode.children, Option.getD_some]
      | none =>
          simp only [flattenForest, flattenNode, BNode.nodeType, BNode.fullPath,
            BNode.type, BNode.file_type, BNode.name, BNode.path, BNode.size,
            BNode.children, Option.getD_none]

/-- C6: every gateway function with required arguments fails with its
descriptive local validation message and issues zero network requests
whenever a required argument is missing or empty; in particular
fetchRepoFiles with an empty owner fails this way for every network
behavior. -/
theorem gateway_local_validation :
    (∀ (net : NetOutcome RFBody) (owner repo : String), owner = "" ∨ repo = "" →
      fetchRepoFilesRun net owner repo =
        (.error "Owner and repository name are required", 0)) ∧
    (∀ (net : NetOutcome RFBody), fetchRepoFilesRun net "" "repo" =
      (.error "Owner and repository name are required", 0)) ∧
    (∀ (net : NetOutcome FCBody) (owner repo : String) (paths : List String),
      owner = "" ∨ repo = "" →
      fetchFileContentsRun net owner repo paths =
        (.error "Owner and repository name are required", 0)) ∧
    (∀ (net : NetOutcome FCBody) (owner repo : String),
      ¬(owner = "" ∨ repo = "") →
      fetchFileContentsRun net owner repo [] =
        (.error "File paths array is required and must not be empty", 0)) ∧
    (∀ (net : NetOutcome Nat) (fw : String),
      summarizeTestsWithContentRun net [] fw =
        (.error "File contents array is required and must not be empty", 0)) ∧
    (∀ (net1 : NetOutcome FCBody) (net2 : NetOutcome Nat) (owner repo fw : String)
      (paths : List String), owner = "" ∨ repo = "" →
      summarizeTestsRun net1 net2 owner repo paths fw =
        (.error "Owner and repository name are required", 0)) ∧
    (∀ (net1 : NetOutcome FCBody) (net2 : NetOutcome Nat) (owner repo fw : String),
      ¬(owner = "" ∨ repo = "") →
      summarizeTestsRun net1 net2 owner repo [] fw =
        (.error "File paths array is required and must not be empty", 0)) ∧
    (∀ (net : NetOutcome Nat) (summary fw : String),
      generateCodeRun net none summary fw = (.error "File content is required", 0)) ∧
    (∀ (net : NetOutcome Nat) (fc : FileContent) (fw : String),
      generateCodeRun net (some fc) "" fw = (.error "Summary is required", 0)) ∧
    (∀ (net : NetOutcome Nat) (fileContent scenario : String),
      generateTestRun net "" fileContent scenario =
        (.error "File name is required", 0)) ∧
    (∀ (net : NetOutcome Nat) (fileName scenario : String), fileName ≠ "" →
      generateTestRun net fileName "" scenario =
        (.error "File content is required", 0)) ∧
    (∀ (net : NetOutcome Nat) (fileName fileContent : String),
      fileName ≠ "" → fileContent ≠ "" →
      generateTestRun net fileName fileContent "" =
        (.error "Scenario is required", 0)) := by
  refine ⟨?_, ?_, ?_, ?_, ?_, ?_, ?_, ?_, ?_, ?_, ?_, ?_⟩
  · intro net owner repo h; simp [fetchRepoFilesRun, h]
  · intro net; simp [fetchRepoFilesRun]
  · intro net owner repo paths h; simp [fetchFileContentsRun, h]
  · intro net owner repo h; simp [fetchFileContentsRun, h]
  · intro net fw; simp [summarizeTestsWithContentRun]
  · intro net1 net2 owner repo fw paths h; simp [summarizeTestsRun, h]
  · intro net1 net2 owner repo fw h; simp [summarizeTestsRun, h]
  · intro net summary fw; simp [generateCodeRun]
  · intro net fc fw; simp [generateCodeRun]
  · intro net fileContent scenario; simp [generateTestRun]
  · intro net fileName scenario h; simp [generateTestRun, h]
  · intro net fileName fileContent h1 h2; simp [generateTestRun, h1, h2]

/-- Witness for C6: fetchRepoFiles with empty owner fails locally with zero
requests for a concrete network behavior. -/
theorem gateway_local_validation_witness :
    fetchRepoFilesRun (.success (.obj none)) "" "repo" =
      (.error "Owner and repository name are required", 0) :=
  gateway_local_validation.1 (.success (.obj none)) "" "repo" (Or.inl rfl)

/-- C7 counterexample: the source trims the extracted detail field, so a
padded detail does not come back verbatim as the claim states; a message
that is present but empty yields the unknown-error message, not the empty
message; and a thrown truthy non-object value is rendered with String(err)
rather than the unknown-error message the claim assigns to values without a
message field. -/
theorem normalizeAxiosError_claim_counterexample :
    normalizeAxiosError (.errObj (some ⟨some 404, some "Not Found",
        .obj (some " padded ") none none none⟩) false none) = "padded" ∧
      ("padded" : String) ≠ " padded " ∧
      normalizeAxiosError (.errObj none false (some "")) = "Unknown error occurred" ∧
      ("Unknown error occurred" : String) ≠ "" ∧
      normalizeAxiosError (.primString "boom") = "boom" ∧
      ("boom" : String) ≠ "Unknown error occurred" := by
  refine ⟨rfl, by decide, rfl, by decide, rfl, by decide⟩

/-- C7 amended: failure normalization maps the three failure shapes thus:
(a) a non-2xx HTTP response yields the trimmed value of the first truthy
detail / message / error / msg field of the body when that trimmed value is
non-empty (a 404 with detail Repository not found yields exactly that
message), else the {status} {statusText} fallback; (b) no response received
yields exactly the network-unreachable message; (c) any other thrown value
yields its message when present and non-empty, else its JS string rendering
when it is a truthy non-object primitive, else the unknown-error message. -/
theorem normalizeAxiosError_amended :
    (∀ (st : Option Nat) (stx : Option String) (hr : Bool) (m : Option String)
      (a b c d : Option String) (v : String),
      firstTruthyField a b c d = some v → jsTrim v ≠ "" →
      normalizeAxiosError (.errObj (some ⟨st, stx, .obj a b c d⟩) hr m) = jsTrim v) ∧
    (∀ (st : Option Nat) (stx : Option String) (hr : Bool) (m : Option String)
      (a b c d : Option String),
      firstTruthyField a b c d = none →
      normalizeAxiosError (.errObj (some ⟨st, stx, .obj a b c d⟩) hr m) =
        statusDisplay st ++ " " ++ statusTextDisplay stx) ∧
    (∀ (st : Option Nat) (stx : Option String) (hr : Bool) (m : Option String)
      (a b c d : Option String) (v : String),
      firstTruthyField a b c d = some v → jsTrim v = "" →
      normalizeAxiosError (.errObj (some ⟨st, stx, .obj a b c d⟩) hr m) =
        statusDisplay st ++ " " ++ statusTextDisplay stx) ∧
    (normalizeAxiosError (.errObj (some ⟨some 404, some "Not Found",
        .obj (some "Repository not found") none none none⟩) false none) =
      "Repository not found") ∧
    (∀ m : Option String, normalizeAxiosError (.errObj none true m) =
      "Network error: backend unreachable") ∧
    (∀ m : String, m ≠ "" → normalizeAxiosError (.errObj none false (some m)) = m) ∧
    (normalizeAxiosError (.errObj none false (some "")) = "Unknown error occurred") ∧
    (normalizeAxiosError (.errObj none false none) = "Unknown error occurred") ∧
    (∀ s : String, s ≠ "" → normalizeAxiosError (.primString s) = s) ∧
    (normalizeAxiosError (.primString "") = "Unknown error occurred") ∧
    (∀ n : Int, n ≠ 0 → normalizeAxiosError (.primNumber n) = toString n) ∧
    (normalizeAxiosError (.primBool true) = "true") ∧
    (normalizeAxiosError (.primBool false) = "Unknown error occurred") ∧
    (normalizeAxiosError .nullErr = "Unknown error occurred") := by
  refine ⟨?_, ?_, ?_, rfl, ?_, ?_, rfl, rfl, ?_, rfl, ?_, rfl, rfl, rfl⟩
  · intro st stx hr m a b c d v h1 h2
    simp [normalizeAxiosError, h1, h2]
  · intro st stx hr m a b c d h1
    simp [normalizeAxiosError, h1]
  · intro st stx hr m a b c d v h1 h2
    simp [normalizeAxiosError, h1, h2]
  · intro m; rfl
  · intro m h; simp [normalizeAxiosError, h]
  · intro s h; simp [normalizeAxiosError, h]
  · intro n h; simp [normalizeAxiosError, h]

/-- Witness for the amended C7: a padded detail field comes back trimmed. -/
theorem normalizeAxiosError_amended_witness :
    normalizeAxiosError (.errObj (some ⟨some 404, some "Not Found",
        .obj (some " padded ") none none none⟩) false none) = jsTrim " padded " :=
  normalizeAxiosError_amended.1 (some 404) (some "Not Found") false none
    (some " padded ") none none none " padded " rfl (by decide)

/-- C8 counterexample: on a successful response whose body is the bare
string x (so the files field is absent), fetchFileContents returns the body
itself, not an empty collection. -/
theorem fetchFileContents_claim_counterexample :
    fetchFileContentsRun (.success (.str "x")) "o" "r" ["p"] =
        (.ok (.rawBody (.str "x")), 1) ∧
      FCResult.rawBody (.str "x") ≠ FCResult.filesList [] :=
  ⟨rfl, by decide⟩

/-- C8 amended: on a successful response, fetchRepoFiles returns the
flattened files field, and the empty sequence when that field is absent or
the body is falsy; fetchFileContents returns the files field when present,
falls back to the whole body when the body is truthy without a files field,
and returns the empty list only when the body is falsy. -/
theorem gateway_success_extraction :
    (∀ (owner repo : String), ¬(owner = "" ∨ repo = "") →
      fetchRepoFilesRun (.success (.obj none)) owner repo = (.ok [], 1) ∧
      fetchRepoFilesRun (.success .nullBody) owner repo = (.ok [], 1) ∧
      (∀ ns : List BNode, fetchRepoFilesRun (.success (.obj (some ns))) owner repo =
        (.ok (flattenFiles ns), 1))) ∧
    (∀ (owner repo : String) (paths : List String),
      ¬(owner = "" ∨ repo = "") → paths ≠ [] →
      (∀ fs : List FileContent,
        fetchFileContentsRun (.success (.obj (some fs))) owner repo paths =
          (.ok (.filesList fs), 1)) ∧
      fetchFileContentsRun (.success (.obj none)) owner repo paths =
        (.ok (.rawBody (.obj none)), 1) ∧
      (∀ s : String, s ≠ "" →
        fetchFileContentsRun (.success (.str s)) owner repo paths =
          (.ok (.rawBody (.str s)), 1)) ∧
      fetchFileContentsRun (.success (.str "")) owner repo paths =
        (.ok (.filesList []), 1) ∧
      fetchFileContentsRun (.success .nullBody) owner repo paths =
        (.ok (.filesList []), 1)) := by
  constructor
  · intro owner repo h
    refine ⟨?_, ?_, ?_⟩ <;>
      simp [fetchRepoFilesRun, h, rfFiles, flattenFiles, flattenForest]
  · intro owner repo paths h hp
    refine ⟨?_, ?_, ?_, ?_, ?_⟩ <;>
      simp [fetchFileContentsRun, h, hp, fcExtract]

/-- Witness for the amended C8: a successful response without a files field
gives the empty sequence for fetchRepoFiles at concrete arguments. -/
theorem gateway_success_extraction_witness :
    fetchRepoFilesRun (.success (.obj none)) "o" "r" = (.ok [], 1) :=
  (gateway_success_extraction.1 "o" "r" (by decide)).1

theorem checkBackendHealth_eq_any : ∀ l : List HealthOutcome,
    checkBackendHealth l = l.any (fun o => o == HealthOutcome.resp 200)
  | [] => rfl
  | .resp s :: rest => by
      by_cases h : s = 200
      · subst h; simp [checkBackendHealth]
      · simp [checkBackendHealth, checkBackendHealth_eq_any rest, h]
  | .failed :: rest => by
      simp [checkBackendHealth, checkBackendHealth_eq_any rest]

/-- C9: checkBackendHealth probes the three candidates in their fixed order
and returns true exactly when one of them answers HTTP 200; in particular it
returns true when the second candidate answers 200 after the first fails,
and false exactly when none of the three answers 200.  The model is a total
Bool-valued function: the source catches every probe error in the loop and
never raises. -/
theorem checkBackendHealth_spec :
    (∀ o1 o2 o3 : HealthOutcome,
      (checkBackendHealth [o1, o2, o3] = true ↔
        (o1 = .resp 200 ∨ o2 = .resp 200 ∨ o3 = .resp 200))) ∧
    (∀ o3 : HealthOutcome, checkBackendHealth [.failed, .resp 200, o3] = true) := by
  constructor
  · intro o1 o2 o3
    rw [checkBackendHealth_eq_any]
    simp
  · intro o3
    simp [checkBackendHealth]

/-- C10 counterexample: a 404 response whose body is the non-empty blank
string falls back to the {status} {statusText} message instead of the
trimmed (empty) body the claim prescribes. -/
theorem stringBody_claim_counterexample :
    normalizeAxiosError (.errObj (some ⟨some 404, some "Not Found", .str " "⟩)
        false none) = "404 Not Found" ∧
      (" " : String) ≠ "" ∧ jsTrim " " = "" ∧
      ("404 Not Found" : String) ≠ jsTrim " " := by
  refine ⟨rfl, by decide, rfl, by decide⟩

/-- C10 amended: a non-2xx response whose body is a string yields that
string trimmed exactly when the trimmed value is non-empty; an empty or
whitespace-only string body falls back to {status} {statusText}. -/
theorem stringBody_trim_amended (st : Option Nat) (stx : Option String)
    (hr : Bool) (m : Option String) (s : String) :
    (jsTrim s ≠ "" →
      normalizeAxiosError (.errObj (some ⟨st, stx, .str s⟩) hr m) = jsTrim s) ∧
    (jsTrim s = "" →
      normalizeAxiosError (.errObj (some ⟨st, stx, .str s⟩) hr m) =
        statusDisplay st ++ " " ++ statusTextDisplay stx) := by
  constructor
  · intro h
    have hs : s ≠ "" := by
      intro he
      exact h (by rw [he]; rfl)
    simp [normalizeAxiosError, hs, h]
  · intro h
    by_cases hs : s = ""
    · subst hs; simp [normalizeAxiosError]
    · simp [normalizeAxiosError, hs, h]

/-- Witness for the amended C10: a padded string body comes back trimmed. -/
theorem stringBody_trim_amended_witness :
    normalizeAxiosError (.errObj (some ⟨some 404, some "Not Found",
        .str " body "⟩) false none) = jsTrim " body " :=
  (stringBody_trim_amended (some 404) (some "Not Found") false none " body ").1
    (by decide)
